import Mathlib

/-!
Verification of the Nixernetes manifest validation and resource-ordering
engine (`tests/test_yaml_validation.py`) and of the API-version matrix
builder (`docs/api_schema_parser.py`).

The Python code operates on parsed YAML documents: untyped values that are
strings, integers, booleans, `None`, lists, or string-keyed dictionaries.
We embed these as the inductive type `Value`.  Python operations that can
raise (`x.get` on a non-dict, `k in x` on a non-container, subscripting)
are embedded in the `Except String` monad, the error string naming the
Python exception class.  Each validator below is a direct transcription of
the corresponding Python function, preserving evaluation order, so that an
input raising in Python yields `.error` here at the same operation.
-/

/-- A parsed YAML / JSON value, as the Python code receives it. -/
inductive Value where
  | str (s : String)
  | int (n : Int)
  | bool (b : Bool)
  | null
  | list (xs : List Value)
  | dict (kvs : List (String × Value))

mutual

/-- Structural equality of values (Python `==` on these types). -/
def beqV : Value → Value → Bool
  | .str a, .str b => a == b
  | .int a, .int b => a == b
  | .bool a, .bool b => a == b
  | .null, .null => true
  | .list xs, .list ys => beqVL xs ys
  | .dict xs, .dict ys => beqVD xs ys
  | _, _ => false

def beqVL : List Value → List Value → Bool
  | [], [] => true
  | x :: xs, y :: ys => beqV x y && beqVL xs ys
  | _, _ => false

def beqVD : List (String × Value) → List (String × Value) → Bool
  | [], [] => true
  | (k1, v1) :: xs, (k2, v2) :: ys => k1 == k2 && beqV v1 v2 && beqVD xs ys
  | _, _ => false

end

instance : BEq Value := ⟨beqV⟩

/-- Python truthiness (`bool(x)`): `None`, `False`, `0`, `""`, `[]`, and
the empty dict are falsy, everything else truthy. -/
def Value.truthy : Value → Bool
  | .null => false
  | .bool b => b
  | .int n => n != 0
  | .str s => s != ""
  | .list xs => !xs.isEmpty
  | .dict kvs => !kvs.isEmpty

/-- `isinstance(x, dict)`. -/
def Value.isDict : Value → Bool
  | .dict _ => true
  | _ => false

/-- `isinstance(x, str)`. -/
def Value.isStr : Value → Bool
  | .str _ => true
  | _ => false

/-- `isinstance(x, list)`. -/
def Value.isList : Value → Bool
  | .list _ => true
  | _ => false

/-- Python hashability: strings, numbers, booleans and `None` are
hashable; lists and dicts are not, and hashing them (as a dict/set key or
set element) raises `TypeError`. -/
def Value.hashable : Value → Bool
  | .list _ => false
  | .dict _ => false
  | _ => true

mutual

/-- Python `str(x)`, as used by f-string interpolation. -/
def pyStr : Value → String
  | .str s => s
  | .int n => toString n
  | .bool b => if b then "True" else "False"
  | .null => "None"
  | .list xs => "[" ++ pyReprList xs ++ "]"
  | .dict kvs => "\x7b" ++ pyReprDict kvs ++ "\x7d"

/-- Python `repr(x)` (strings quoted; escaping inside strings not modelled,
the inputs we evaluate on contain no characters needing escapes). -/
def pyRepr : Value → String
  | .str s => "'" ++ s ++ "'"
  | .int n => toString n
  | .bool b => if b then "True" else "False"
  | .null => "None"
  | .list xs => "[" ++ pyReprList xs ++ "]"
  | .dict kvs => "\x7b" ++ pyReprDict kvs ++ "\x7d"

def pyReprList : List Value → String
  | [] => ""
  | [x] => pyRepr x
  | x :: xs => pyRepr x ++ ", " ++ pyReprList xs

def pyReprDict : List (String × Value) → String
  | [] => ""
  | [(k, v)] => "'" ++ k ++ "': " ++ pyRepr v
  | (k, v) :: kvs => "'" ++ k ++ "': " ++ pyRepr v ++ ", " ++ pyReprDict kvs

end

/-- Python `repr` of a list of strings, e.g. `str(self.VALID_LEVELS)`. -/
def pyReprStrList (xs : List String) : String :=
  "[" ++ String.intercalate ", " (xs.map (fun s => "'" ++ s ++ "'")) ++ "]"

/-- A character list is a prefix of another. -/
def listIsPrefix : List Char → List Char → Bool
  | [], _ => true
  | _ :: _, [] => false
  | a :: as, b :: bs => a == b && listIsPrefix as bs

/-- A character list occurs as a contiguous run in another. -/
def subAt : List Char → List Char → Bool
  | needle, [] => listIsPrefix needle []
  | needle, c :: rest => listIsPrefix needle (c :: rest) || subAt needle rest

/-- Substring test: Python `needle in hay` for strings. -/
def strContains (hay needle : String) : Bool :=
  subAt needle.data hay.data

/-- Python `x.get(key)` (default `None`).  Raises `AttributeError` when `x`
is not a dict. -/
def pyGet (v : Value) (key : String) : Except String Value :=
  match v with
  | .dict kvs => .ok ((kvs.lookup key).getD .null)
  | _ => .error "AttributeError"

/-- Python `x.get(key, default)`.  Raises `AttributeError` when `x` is not
a dict. -/
def pyGetD (v : Value) (key : String) (d : Value) : Except String Value :=
  match v with
  | .dict kvs => .ok ((kvs.lookup key).getD d)
  | _ => .error "AttributeError"

/-- Python `needle in x` for a string needle: key membership for dicts,
element membership for lists, substring for strings; `TypeError` for
non-container values. -/
def pyContains (needle : String) (v : Value) : Except String Bool :=
  match v with
  | .dict kvs => .ok (kvs.any (fun kv => kv.1 == needle))
  | .list xs => .ok (xs.any (fun x => beqV x (.str needle)))
  | .str s => .ok (strContains s needle)
  | _ => .error "TypeError"

/-- Python `x[key]` for a string key: dict lookup (`KeyError` when the key
is absent), `TypeError` for any non-dict value. -/
def pySubscript (v : Value) (key : String) : Except String Value :=
  match v with
  | .dict kvs =>
    match kvs.lookup key with
    | some x => .ok x
    | none => .error "KeyError"
  | _ => .error "TypeError"

/-- Python `x.items()` of a dict; `AttributeError` otherwise. -/
def pyItems (v : Value) : Except String (List (String × Value)) :=
  match v with
  | .dict kvs => .ok kvs
  | _ => .error "AttributeError"

/-! ## KubernetesValidator -/

/-- `KubernetesValidator.validate_resource_structure`: basic resource
structure checks, returning `(is_valid, errors)`; transcribed check for
check, in order, including the unguarded `"namespace" in
resource["metadata"]` test. -/
def validate_resource_structure (resource : Value) : Except String (Bool × List String) := do
  let hasApi ← pyContains "apiVersion" resource
  let hasKind ← pyContains "kind" resource
  let hasMeta ← pyContains "metadata" resource
  let errs1 := (if !hasApi then ["Missing required field: apiVersion"] else [])
    ++ (if !hasKind then ["Missing required field: kind"] else [])
    ++ (if !hasMeta then ["Missing required field: metadata"] else [])
  let errs2 ← if hasMeta then do
      let metadata ← pySubscript resource "metadata"
      if !metadata.isDict then
        pure ["metadata must be a dictionary"]
      else do
        let hasName ← pyContains "name" metadata
        if !hasName then
          pure ["metadata.name is required"]
        else do
          let nameVal ← pySubscript metadata "name"
          pure (if !nameVal.isStr then ["metadata.name must be a string"] else [])
    else pure []
  let errs3 ← if hasMeta then do
      let md ← pySubscript resource "metadata"
      let hasNs ← pyContains "namespace" md
      if hasNs then do
        let ns ← pySubscript md "namespace"
        pure (if !ns.isStr then ["metadata.namespace must be a string"] else [])
      else pure []
    else pure []
  let errors := errs1 ++ errs2 ++ errs3
  pure (errors.isEmpty, errors)

/-- `KubernetesValidator.validate_labels`. -/
def validate_labels (resource : Value) : Except String (Bool × List String) := do
  let metadata ← pyGetD resource "metadata" (.dict [])
  let labels ← pyGetD metadata "labels" (.dict [])
  if !labels.isDict then
    pure (false, ["labels must be a dictionary"])
  else
    pure (true, [])

/-- `KubernetesValidator.validate_annotations`. -/
def validate_annotations (resource : Value) : Except String (Bool × List String) := do
  let metadata ← pyGetD resource "metadata" (.dict [])
  let anns ← pyGetD metadata "annotations" (.dict [])
  if anns.truthy && !anns.isDict then
    pure (false, ["annotations must be a dictionary"])
  else
    pure (true, [])

/-! ## ComplianceValidator -/

def REQUIRED_COMPLIANCE_LABELS : List String :=
  ["nixernetes.io/framework", "nixernetes.io/compliance-level", "nixernetes.io/owner"]

def VALID_FRAMEWORKS : List String :=
  ["PCI-DSS", "HIPAA", "SOC2", "ISO27001", "GDPR", "NIST"]

def VALID_LEVELS : List String :=
  ["unrestricted", "permissive", "standard", "strict", "restricted"]

/-- `ComplianceValidator.validate_compliance_labels`. -/
def validate_compliance_labels (resource : Value) (required : Bool) :
    Except String (Bool × List String) := do
  let metadata ← pyGetD resource "metadata" (.dict [])
  let labels ← pyGetD metadata "labels" (.dict [])
  let errs1 ← if required then do
      let present ← pyContains "nixernetes.io/framework" labels
      pure (if !present then ["Required label missing: nixernetes.io/framework"] else [])
    else pure []
  let hasFramework ← pyContains "nixernetes.io/framework" labels
  let errs2 ← if hasFramework then do
      let framework ← pySubscript labels "nixernetes.io/framework"
      pure (if !(VALID_FRAMEWORKS.any (fun s => beqV framework (.str s))) then
          ["Invalid framework: " ++ pyStr framework ++ ". Valid frameworks: "
            ++ pyReprStrList VALID_FRAMEWORKS]
        else [])
    else pure []
  let hasLevel ← pyContains "nixernetes.io/compliance-level" labels
  let errs3 ← if hasLevel then do
      let level ← pySubscript labels "nixernetes.io/compliance-level"
      pure (if !(VALID_LEVELS.any (fun s => beqV level (.str s))) then
          ["Invalid compliance level: " ++ pyStr level ++ ". Valid levels: "
            ++ pyReprStrList VALID_LEVELS]
        else [])
    else pure []
  let errors := errs1 ++ errs2 ++ errs3
  pure (errors.isEmpty, errors)

def traceability_fields : List String :=
  ["nixernetes.io/nix-build-id", "nixernetes.io/generated-by"]

/-- `ComplianceValidator.validate_traceability`: computes whether any
traceability key is present (short-circuiting like Python `any`), then
deliberately does nothing with the result (`pass`). -/
def validate_traceability (resource : Value) : Except String (Bool × List String) := do
  let metadata ← pyGetD resource "metadata" (.dict [])
  let anns ← pyGetD metadata "annotations" (.dict [])
  let _hasTrace ← traceability_fields.foldlM
    (fun acc f => if acc then pure true else pyContains f anns) false
  pure (true, [])

/-! ## PolicyValidator -/

/-- `PolicyValidator.validate_network_policy`. -/
def validate_network_policy (resource : Value) : Except String (Bool × List String) := do
  let kind ← pyGet resource "kind"
  if !(beqV kind (.str "NetworkPolicy")) then
    pure (true, [])
  else do
    let spec ← pyGetD resource "spec" (.dict [])
    let hasPodSelector ← pyContains "podSelector" spec
    let errs1 := if !hasPodSelector then ["NetworkPolicy.spec.podSelector is required"] else []
    let hasIngress ← pyContains "ingress" spec
    let has_rules ← if hasIngress then pure true else do
      let hasEgress ← pyContains "egress" spec
      if hasEgress then pure true else pyContains "policyTypes" spec
    let errs2 := if !has_rules then
        ["NetworkPolicy should define ingress/egress rules or policyTypes"]
      else []
    let errors := errs1 ++ errs2
    pure (errors.isEmpty, errors)

/-- `PolicyValidator.validate_kyverno_policy`. -/
def validate_kyverno_policy (resource : Value) : Except String (Bool × List String) := do
  let kind ← pyGet resource "kind"
  if !(["ClusterPolicy", "Policy"].any (fun s => beqV kind (.str s))) then
    pure (true, [])
  else do
    let spec ← pyGetD resource "spec" (.dict [])
    let hasRules ← pyContains "rules" spec
    let errs1 := if !hasRules then [pyStr kind ++ ".spec.rules is required"] else []
    let rulesVal ← pyGet spec "rules"
    let errs2 ← match rulesVal with
      | .list xs =>
        if xs.length == 0 then pure [pyStr kind ++ ".spec.rules must not be empty"]
        else pure ([] : List String)
      | _ => pure []
    let errors := errs1 ++ errs2
    pure (errors.isEmpty, errors)

/-- `PolicyValidator.validate_rbac_resource`. -/
def validate_rbac_resource (resource : Value) : Except String (Bool × List String) := do
  let kind ← pyGet resource "kind"
  if !(["Role", "RoleBinding", "ClusterRole", "ClusterRoleBinding"].any
      (fun s => beqV kind (.str s))) then
    pure (true, [])
  else do
    let spec ← pyGetD resource "spec" (.dict [])
    if ["Role", "ClusterRole"].any (fun s => beqV kind (.str s)) then do
      let hasRules ← pyContains "rules" spec
      let errors := if !hasRules then [pyStr kind ++ ".spec.rules is required"] else []
      pure (errors.isEmpty, errors)
    else do
      let hasRoleRef ← pyContains "roleRef" spec
      let e1 := if !hasRoleRef then [pyStr kind ++ ".spec.roleRef is required"] else []
      let hasSubjects ← pyContains "subjects" spec
      let e2 := if !hasSubjects then [pyStr kind ++ ".spec.subjects is required"] else []
      let errors := e1 ++ e2
      pure (errors.isEmpty, errors)

/-! ## ManifestAnalyzer -/

/-- One entry of `validation_results` in
`ManifestAnalyzer.validate_manifest`. -/
structure ResourceResult where
  index : Nat
  kind : Value
  name : Value
  is_valid : Bool
  errors : List String

/-- The dictionary returned by `ManifestAnalyzer.validate_manifest`. -/
structure ManifestResult where
  is_valid : Bool
  resource_count : Nat
  validation_results : List ResourceResult
  manifest_errors : List String

/-- The dictionary returned by
`ManifestAnalyzer.validate_resource_ordering`. -/
structure OrderingResult where
  is_ordered : Bool
  ordering_issues : List String
  resource_count : Nat

/-- `ManifestAnalyzer.parse_yaml_manifest`, after the external YAML split:
drops the `None` documents, keeping order.  We take the already-split
document sequence as input (`yaml.safe_load_all` is the external parse
step). -/
def parse_yaml_manifest (docs : List Value) : List Value :=
  docs.filter (fun d => !(beqV d .null))

/-- The body of the per-resource loop of
`ManifestAnalyzer.validate_manifest` for document `i`. -/
def validate_resource (i : Nat) (resource : Value) : Except String ResourceResult := do
  let kind ← pyGetD resource "kind" (.str "Unknown")
  let mdForName ← pyGetD resource "metadata" (.dict [])
  let name ← pyGetD mdForName "name" (.str "unnamed")
  let structRes ← validate_resource_structure resource
  let labelRes ← validate_labels resource
  let annRes ← validate_annotations resource
  let mdForLabels ← pyGetD resource "metadata" (.dict [])
  let hasLabels ← pyContains "labels" mdForLabels
  let complianceErrors ← if hasLabels then do
      let complianceRes ← validate_compliance_labels resource false
      pure complianceRes.2
    else pure []
  let policyRes ← validate_network_policy resource
  let kyvernoRes ← validate_kyverno_policy resource
  let rbacRes ← validate_rbac_resource resource
  let resource_errors := structRes.2 ++ labelRes.2 ++ annRes.2 ++ complianceErrors
    ++ policyRes.2 ++ kyvernoRes.2 ++ rbacRes.2
  pure { index := i, kind := kind, name := name,
         is_valid := resource_errors.isEmpty, errors := resource_errors }

/-- The `for i, resource in enumerate(resources)` loop of
`validate_manifest` (the `None` guard inside the loop is kept although the
prior parse already removed `None` entries). -/
def validate_resources_loop : Nat → List Value → Except String (List ResourceResult)
  | _, [] => .ok []
  | i, r :: rest =>
    if beqV r .null then validate_resources_loop (i + 1) rest
    else do
      let res ← validate_resource i r
      let others ← validate_resources_loop (i + 1) rest
      pure (res :: others)

/-- The set comprehension of `validate_manifest` collecting the
`metadata.name` of every resource of `kind == "Namespace"` (kept as a list;
only membership is ever used).  Inserting into a Python set hashes the
element, so an unhashable name (a list or dict) raises `TypeError` at that
point of the comprehension. -/
def namespacesOf : List Value → Except String (List Value)
  | [] => .ok []
  | r :: rest => do
    let kind ← pyGet r "kind"
    if beqV kind (.str "Namespace") then do
      let md ← pyGetD r "metadata" (.dict [])
      let nm ← pyGet md "name"
      if !nm.hashable then .error "TypeError"
      else do
        let others ← namespacesOf rest
        pure (nm :: others)
    else
      namespacesOf rest

/-- The bundle-level loop of `validate_manifest`: a dangling-namespace
finding for every resource whose namespace value is truthy, differs from
`"default"`, and is not among the declared `Namespace` names.  The Python
condition `ns and ns != "default" and ns not in namespaces` short-circuits:
only when the first two conjuncts hold is `ns` hashed by the set-membership
test, so a truthy non-`"default"` unhashable namespace raises `TypeError`
there. -/
def dangling_errors (namespaces : List Value) : List Value → Except String (List String)
  | [] => .ok []
  | resource :: rest => do
    let md ← pyGetD resource "metadata" (.dict [])
    let ns ← pyGet md "namespace"
    let here ← if ns.truthy && !(beqV ns (.str "default")) then do
        if !ns.hashable then .error "TypeError"
        else if !(namespaces.any (fun x => beqV ns x)) then do
          let k ← pyGet resource "kind"
          let md2 ← pyGetD resource "metadata" (.dict [])
          let nm ← pyGet md2 "name"
          pure ["Resource " ++ pyStr k ++ " " ++ pyStr nm ++ " references namespace '"
            ++ pyStr ns ++ "' which is not defined"]
        else pure ([] : List String)
      else pure ([] : List String)
    let restErrs ← dangling_errors namespaces rest
    pure (here ++ restErrs)

/-- `ManifestAnalyzer.validate_manifest` on an already-split document
sequence. -/
def validate_manifest (docs : List Value) : Except String ManifestResult := do
  let resources := parse_yaml_manifest docs
  let validation_results ← validate_resources_loop 0 resources
  let namespaces ← namespacesOf resources
  let errors ← dangling_errors namespaces resources
  let is_valid := errors.isEmpty && validation_results.all (fun r => r.is_valid)
  pure { is_valid := is_valid, resource_count := resources.length,
         validation_results := validation_results, manifest_errors := errors }

/-- The fixed priority table of
`ManifestAnalyzer.validate_resource_ordering`. -/
def resource_priority : List (String × Nat) :=
  [("Namespace", 1),
   ("ClusterRole", 2), ("ClusterRoleBinding", 2), ("Role", 2), ("RoleBinding", 2),
   ("ServiceAccount", 2),
   ("ConfigMap", 3), ("Secret", 3),
   ("Pod", 4), ("Deployment", 4), ("StatefulSet", 4), ("DaemonSet", 4),
   ("Job", 4), ("CronJob", 4),
   ("Service", 5),
   ("Ingress", 6),
   ("NetworkPolicy", 7), ("ClusterPolicy", 7), ("Policy", 7)]

/-- `resource_priority.get(kind, 99)`: Python hashes the key first, so an
unhashable kind value (a list or dict) raises `TypeError`; hashable keys
are looked up in the table (whose keys are all strings), unknown ones
falling back to the sentinel 99. -/
def priorityOf (kind : Value) : Except String Nat :=
  match kind with
  | .str s => .ok ((resource_priority.lookup s).getD 99)
  | .int _ => .ok 99
  | .bool _ => .ok 99
  | .null => .ok 99
  | .list _ => .error "TypeError"
  | .dict _ => .error "TypeError"

/-- The walk of `validate_resource_ordering`, carrying the enumeration
index and `prev_priority` (which is always advanced to the current
priority, violation or not). -/
def ordering_loop : Nat → Nat → List Value → Except String (Bool × List String)
  | _, _, [] => .ok (true, [])
  | i, prev, resource :: rest =>
    if beqV resource .null then ordering_loop (i + 1) prev rest
    else do
      let kind ← pyGet resource "kind"
      let priority ← priorityOf kind
      let here := if priority < prev then
          ["Resource " ++ toString i ++ ": " ++ pyStr kind ++ " (priority "
            ++ toString priority ++ ") comes after priority " ++ toString prev]
        else []
      let restRes ← ordering_loop (i + 1) priority rest
      pure ((!(priority < prev)) && restRes.1, here ++ restRes.2)

/-- `ManifestAnalyzer.validate_resource_ordering` on an already-split
document sequence (`prev_priority` starts at 0). -/
def validate_resource_ordering (docs : List Value) : Except String OrderingResult := do
  let resources := parse_yaml_manifest docs
  let walk ← ordering_loop 0 0 resources
  pure { is_ordered := walk.1, ordering_issues := walk.2,
         resource_count := resources.length }

/-! ## KubernetesAPIParser (docs/api_schema_parser.py) -/

def CORE_KINDS : List String :=
  ["Pod", "Service", "Namespace", "ConfigMap", "Secret",
   "ServiceAccount", "PersistentVolume", "PersistentVolumeClaim",
   "Deployment", "StatefulSet", "DaemonSet", "ReplicaSet",
   "Job", "CronJob",
   "Ingress", "NetworkPolicy", "IngressClass",
   "Role", "RoleBinding", "ClusterRole", "ClusterRoleBinding"]

def EXTENDED_KINDS : List String :=
  ["ClusterPolicy", "Policy",
   "ExternalSecret", "SecretStore", "ClusterSecretStore",
   "Certificate", "Issuer", "ClusterIssuer"]

/-- `self.all_kinds` (a set in Python; only membership is used). -/
def all_kinds (include_extended : Bool) : List String :=
  CORE_KINDS ++ (if include_extended then EXTENDED_KINDS else [])

/-- The inner `get_priority` of `KubernetesAPIParser._is_more_stable`:
`'alpha' in v` → 1, `'beta' in v` → 2, otherwise 3. -/
def get_priority (v : Value) : Except String Nat := do
  let hasAlpha ← pyContains "alpha" v
  if hasAlpha then pure 1
  else do
    let hasBeta ← pyContains "beta" v
    if hasBeta then pure 2
    else pure 3

/-- `KubernetesAPIParser._is_more_stable`. -/
def is_more_stable (version1 version2 : Value) : Except String Bool := do
  let p1 ← get_priority version1
  let p2 ← get_priority version2
  pure (decide (p1 > p2))

/-- Python dict lookup with a `Value` key (`kind in api_map` /
`api_map[kind]`). -/
def dictGetV (m : List (Value × Value)) (k : Value) : Option Value :=
  (m.find? (fun kv => beqV kv.1 k)).map (fun kv => kv.2)

/-- Python dict assignment `api_map[kind] = v`: replaces in place, or
appends preserving insertion order. -/
def dictSetV (m : List (Value × Value)) (k v : Value) : List (Value × Value) :=
  if m.any (fun kv => beqV kv.1 k) then
    m.map (fun kv => if beqV kv.1 k then (kv.1, v) else kv)
  else m ++ [(k, v)]

/-- The fixed verb scan order of `extract_api_map`. -/
def verbs : List String := ["post", "get", "put", "patch", "delete"]

/-- One verb step of the inner loop of
`KubernetesAPIParser.extract_api_map`. -/
def process_operation (ak : List String) (api_map : List (Value × Value))
    (details : Value) (operation : String) : Except String (List (Value × Value)) := do
  let present ← pyContains operation details
  if !present then pure api_map
  else do
    let operation_spec ← pySubscript details operation
    let gvk ← pyGet operation_spec "x-kubernetes-group-version-kind"
    if !gvk.truthy then pure api_map
    else do
      let kind ← pyGet gvk "kind"
      let group ← pyGetD gvk "group" (.str "")
      let version ← pyGetD gvk "version" (.str "")
      if !(ak.any (fun s => beqV kind (.str s))) then pure api_map
      else if !version.truthy then pure api_map
      else do
        let api_version :=
          if group.truthy then Value.str (pyStr group ++ "/" ++ pyStr version)
          else version
        match dictGetV api_map kind with
        | none => pure (dictSetV api_map kind api_version)
        | some current => do
          let better ← is_more_stable api_version current
          if better then pure (dictSetV api_map kind api_version)
          else pure api_map

/-- The verb loop of `extract_api_map` over one path's `details`. -/
def process_details (ak : List String) (api_map : List (Value × Value))
    (details : Value) : Except String (List (Value × Value)) :=
  verbs.foldlM (fun m op => process_operation ak m details op) api_map

/-- `KubernetesAPIParser.extract_api_map`, parameterised by the allow-list
`self.all_kinds`. -/
def extract_api_map (ak : List String) (spec : Value) :
    Except String (List (Value × Value)) := do
  let paths ← pyGetD spec "paths" (.dict [])
  let items ← pyItems paths
  items.foldlM (fun m kv => process_details ak m kv.2) []

/-! ## Claim-side definitions (stated from the claims' words, to be
related to the transcribed code) -/

/-- Stability tier of a version string: 1 for alpha, 2 for beta,
3 for stable (no `alpha`/`beta` substring). -/
def tierStr (s : String) : Nat :=
  if strContains s "alpha" then 1 else if strContains s "beta" then 2 else 3

/-- The apiVersion string built from a (group, version) pair: `group/version`
when the group is non-empty, the bare version otherwise. -/
def apiVerOf (g v : String) : String :=
  if g == "" then v else g ++ "/" ++ v

/-- The more-stable-wins accumulation on apiVersion strings. -/
def pickStable (cur a : String) : String :=
  if tierStr a > tierStr cur then a else cur

/-- The resolved apiVersion after folding a triple sequence, first-seen
seeding then replace-iff-strictly-more-stable. -/
def accFold : Option String → List (String × String) → Option String
  | acc, [] => acc
  | none, t :: ts => accFold (some (apiVerOf t.1 t.2)) ts
  | some cur, t :: ts => accFold (some (pickStable cur (apiVerOf t.1 t.2))) ts

/-- A single-kind accumulator map. -/
def accMap (K : String) : Option String → List (Value × Value)
  | none => []
  | some s => [(.str K, .str s)]

/-- The GVK annotation object of an operation. -/
def gvkAnn (g v K : String) : Value :=
  .dict [("kind", .str K), ("group", .str g), ("version", .str v)]

/-- A path-operation descriptor carrying one GVK annotation under `post`. -/
def mkPath (g v K : String) : Value :=
  .dict [("post", .dict [("x-kubernetes-group-version-kind", gvkAnn g v K)])]

/-- An OpenAPI spec document whose paths carry exactly the given
(group, version) triples for kind `K`, in the given order. -/
def mkSpecDoc (K : String) (ts : List (String × String)) : Value :=
  .dict [("paths",
    .dict (ts.map (fun t => ("/apis/" ++ t.1 ++ "/" ++ t.2, mkPath t.1 t.2 K))))]

/-- Priority of a document whose kind value is hashable, stated with total
accessors: table lookup for string kinds, the sentinel 99 otherwise. -/
def docPriority (d : Value) : Nat :=
  match d with
  | .dict kvs =>
    match (kvs.lookup "kind").getD .null with
    | .str s => (resource_priority.lookup s).getD 99
    | _ => 99
  | _ => 99

/-- The priority sequence of a bundle's non-null documents. -/
def bundlePriorities (docs : List Value) : List Nat :=
  (parse_yaml_manifest docs).map docPriority

/-- A document on which the ordering walk runs without raising: a mapping
whose kind value is hashable (`resource_priority.get` hashes it). -/
def goodOrderDoc : Value → Bool
  | .dict kvs => ((kvs.lookup "kind").getD .null).hashable
  | _ => false

/-- Number of strict descents between consecutive elements, starting from
a given previous value. -/
def descentCount : Nat → List Nat → Nat
  | _, [] => 0
  | prev, p :: ps => (if p < prev then 1 else 0) + descentCount p ps

/-- An optional field is absent or bound to a mapping. -/
def dictOrAbsent : Option Value → Bool
  | none => true
  | some (.dict _) => true
  | some _ => false

/-- The structural findings of a mapping resource, stated with total
accessors, in the validator's order. -/
def structFindings (kvs : List (String × Value)) : List String :=
  (if (kvs.lookup "apiVersion").isNone then ["Missing required field: apiVersion"] else [])
  ++ (if (kvs.lookup "kind").isNone then ["Missing required field: kind"] else [])
  ++ (if (kvs.lookup "metadata").isNone then ["Missing required field: metadata"] else [])
  ++ (match kvs.lookup "metadata" with
      | none => []
      | some (.dict m) =>
        match m.lookup "name" with
        | none => ["metadata.name is required"]
        | some nm => if !nm.isStr then ["metadata.name must be a string"] else []
      | some _ => ["metadata must be a dictionary"])
  ++ (match kvs.lookup "metadata" with
      | some (.dict m) =>
        match m.lookup "namespace" with
        | some ns => if !ns.isStr then ["metadata.namespace must be a string"] else []
        | none => []
      | _ => [])

/-! ## Basic reduction lemmas -/

@[simp] theorem exc_bind_ok {ε α β : Type} (x : α) (f : α → Except ε β) :
    (Except.ok x >>= f : Except ε β) = f x := rfl

@[simp] theorem exc_bind_error {ε α β : Type} (e : ε) (f : α → Except ε β) :
    ((Except.error e : Except ε α) >>= f : Except ε β) = .error e := rfl

@[simp] theorem exc_pure {ε α : Type} (x : α) : (pure x : Except ε α) = .ok x := rfl

@[simp] theorem beqV_str_str (a b : String) : beqV (.str a) (.str b) = (a == b) := rfl

@[simp] theorem beqV_dict_null (kvs : List (String × Value)) :
    beqV (.dict kvs) .null = false := rfl

@[simp] theorem beqV_null_null : beqV .null .null = true := rfl

@[simp] theorem pyContains_dict (k : String) (kvs : List (String × Value)) :
    pyContains k (.dict kvs) = .ok (kvs.any fun kv => kv.1 == k) := rfl

@[simp] theorem pyGet_dict (k : String) (kvs : List (String × Value)) :
    pyGet (.dict kvs) k = .ok ((kvs.lookup k).getD .null) := rfl

@[simp] theorem pyGetD_dict (k : String) (kvs : List (String × Value)) (d : Value) :
    pyGetD (.dict kvs) k d = .ok ((kvs.lookup k).getD d) := rfl

@[simp] theorem pyItems_dict (kvs : List (String × Value)) :
    pyItems (.dict kvs) = .ok kvs := rfl

@[simp] theorem pyStr_str (s : String) : pyStr (.str s) = s := rfl

@[simp] theorem pyStr_null : pyStr .null = "None" := rfl

@[simp] theorem truthy_str (s : String) : (Value.str s).truthy = (s != "") := rfl

@[simp] theorem truthy_null : (Value.null).truthy = false := rfl

@[simp] theorem isDict_dict (kvs : List (String × Value)) :
    (Value.dict kvs).isDict = true := rfl

/-- Key membership test of the transcription agrees with lookup success. -/
theorem any_key_eq_lookup_isSome (kvs : List (String × Value)) (k : String) :
    (kvs.any fun kv => kv.1 == k) = (kvs.lookup k).isSome := by
  induction kvs with
  | nil => rfl
  | cons hd tl ih =>
    obtain ⟨k', v⟩ := hd
    by_cases h : k = k'
    · subst h; simp [List.lookup]
    · have h1 : (k' == k) = false := by simp [Ne.symm h]
      have h2 : (k == k') = false := by simp [h]
      simp [List.lookup, h1, h2, ih]

/-- A value beq-equal to a string constructor is that constructor. -/
theorem beqV_str_iff (v : Value) (s : String) : beqV v (.str s) = true ↔ v = .str s := by
  cases v <;> simp [beqV]

/-! ## Claim C3 -/

/-- C3: the claim says the Structural Validator and the per-resource pass
of the Manifest Analyzer terminate normally and report malformed content as
findings, never raising.  The code violates this: on a document whose
`metadata` is the number 5, `validate_resource_structure` raises
`TypeError` at the unguarded `"namespace" in resource["metadata"]`, and
`validate_manifest` raises `AttributeError` at
`resource.get("metadata", {}).get("name", "unnamed")`.  This theorem
evaluates the transcription at that failing input. -/
theorem claim_C3_validators_raise_on_number_metadata :
    validate_resource_structure (Value.dict [("metadata", Value.int 5)])
      = .error "TypeError"
    ∧ validate_manifest [Value.dict [("metadata", Value.int 5)]]
      = .error "AttributeError" :=
  ⟨rfl, rfl⟩

/-! ## Claim C8 -/

/-- C8 counterexample: on a resource carrying none of the traceability
annotation keys, `validate_traceability` records nothing at all — the
returned finding list is empty, so no informational finding is recorded,
contrary to the claim's "records an informational finding for the
absence". -/
theorem claim_C8_counterexample :
    validate_traceability (Value.dict [("metadata", Value.dict [("name", Value.str "web")])])
      = .ok (true, []) :=
  rfl

/-- C8 amended: `validate_traceability` records no finding at all —
whenever it returns, it returns valid with an empty finding list, so the
absence of traceability annotations never yields an error-severity finding
and never makes the resource invalid. -/
theorem claim_C8_traceability_never_reports (resource : Value) (r : Bool × List String)
    (h : validate_traceability resource = .ok r) : r = (true, []) := by
  unfold validate_traceability at h
  cases hm : pyGetD resource "metadata" (Value.dict []) with
  | error e => rw [hm] at h; simp at h
  | ok md =>
    rw [hm] at h; simp only [exc_bind_ok] at h
    cases ha : pyGetD md "annotations" (Value.dict []) with
    | error e => rw [ha] at h; simp at h
    | ok anns =>
      rw [ha] at h; simp only [exc_bind_ok] at h
      cases hf : traceability_fields.foldlM
          (fun acc f => if acc then pure true else pyContains f anns) false with
      | error e => rw [hf] at h; simp at h
      | ok b =>
        rw [hf] at h
        simp at h
        exact h.symm

/-- C8 witness: the amended theorem applied at a concrete resource with no
annotations at all. -/
theorem claim_C8_witness : ((true : Bool), ([] : List String)) = (true, []) :=
  claim_C8_traceability_never_reports (Value.dict []) (true, []) rfl

/-! ## Claim C7 -/

/-- C7 counterexample: a `NetworkPolicy` whose `spec` contains none of
`ingress`, `egress`, `policyTypes` — and also no `podSelector` — receives
two findings from `validate_network_policy`, not exactly one as the claim
states for every such resource. -/
theorem claim_C7_counterexample :
    validate_network_policy
        (Value.dict [("kind", Value.str "NetworkPolicy"), ("spec", Value.dict [])])
      = .ok (false,
          ["NetworkPolicy.spec.podSelector is required",
           "NetworkPolicy should define ingress/egress rules or policyTypes"]) :=
  rfl

/-- C7 amended: for every resource of kind `NetworkPolicy` whose `spec` is
a mapping that contains `podSelector` but none of `ingress`, `egress`,
`policyTypes`, the validator produces exactly one finding, the
missing-rules one. -/
theorem claim_C7_network_policy_one_finding
    (kvs skvs : List (String × Value)) (w : Value)
    (hkind : kvs.lookup "kind" = some (.str "NetworkPolicy"))
    (hspec : kvs.lookup "spec" = some (.dict skvs))
    (hpod : skvs.lookup "podSelector" = some w)
    (hing : skvs.lookup "ingress" = none)
    (heg : skvs.lookup "egress" = none)
    (hpt : skvs.lookup "policyTypes" = none) :
    validate_network_policy (.dict kvs)
      = .ok (false, ["NetworkPolicy should define ingress/egress rules or policyTypes"]) := by
  unfold validate_network_policy
  simp [hkind, hspec, any_key_eq_lookup_isSome, hpod, hing, heg, hpt]

/-- C7 witness: the amended theorem applied at a concrete resource. -/
theorem claim_C7_witness :
    validate_network_policy
        (Value.dict [("kind", Value.str "NetworkPolicy"),
                     ("spec", Value.dict [("podSelector", Value.dict [])])])
      = .ok (false, ["NetworkPolicy should define ingress/egress rules or policyTypes"]) :=
  claim_C7_network_policy_one_finding
    [("kind", Value.str "NetworkPolicy"), ("spec", Value.dict [("podSelector", Value.dict [])])]
    [("podSelector", Value.dict [])] (Value.dict []) rfl rfl rfl rfl rfl rfl

/-! ## Claim C6 -/

@[simp] theorem pySubscript_dict (k : String) (kvs : List (String × Value)) :
    pySubscript (.dict kvs) k
      = match kvs.lookup k with
        | some x => .ok x
        | none => .error "KeyError" := rfl

/-- The framework-label findings of a labels mapping (claim-side). -/
def frameworkFindings (lkvs : List (String × Value)) : List String :=
  match lkvs.lookup "nixernetes.io/framework" with
  | none => []
  | some fw =>
    if VALID_FRAMEWORKS.any (fun s => beqV fw (.str s)) then []
    else ["Invalid framework: " ++ pyStr fw ++ ". Valid frameworks: "
      ++ pyReprStrList VALID_FRAMEWORKS]

/-- The compliance-level finding for a level value (claim-side): a finding
exactly when the value lies outside the fixed enumerated set. -/
def complianceLevelFinding (v : Value) : List String :=
  if VALID_LEVELS.any (fun s => beqV v (.str s)) then []
  else ["Invalid compliance level: " ++ pyStr v ++ ". Valid levels: "
    ++ pyReprStrList VALID_LEVELS]

/-- C6: for every resource whose `metadata.labels` carries the
compliance-level key with value `v`, the Compliance Validator's findings
are exactly the framework findings followed by the compliance-level
finding, and the latter is empty precisely when `v` belongs to the fixed
set `{unrestricted, permissive, standard, strict, restricted}`. -/
theorem claim_C6_compliance_level_enum
    (kvs mkvs lkvs : List (String × Value)) (v : Value)
    (hmeta : kvs.lookup "metadata" = some (.dict mkvs))
    (hlabels : mkvs.lookup "labels" = some (.dict lkvs))
    (hlevel : lkvs.lookup "nixernetes.io/compliance-level" = some v) :
    validate_compliance_labels (.dict kvs) false
      = .ok ((frameworkFindings lkvs ++ complianceLevelFinding v).isEmpty,
             frameworkFindings lkvs ++ complianceLevelFinding v)
    ∧ (complianceLevelFinding v = [] ↔ v ∈ VALID_LEVELS.map Value.str) := by
  constructor
  · unfold validate_compliance_labels
    simp only [pyGetD_dict, hmeta, Option.getD_some, exc_bind_ok, hlabels,
      Bool.false_eq_true, if_false, pyContains_dict, any_key_eq_lookup_isSome,
      hlevel, Option.isSome_some, pySubscript_dict]
    cases hF : lkvs.lookup "nixernetes.io/framework" with
    | none =>
      simp only [frameworkFindings, hF, Option.isSome_none, complianceLevelFinding]
      cases hc : VALID_LEVELS.any (fun s => beqV v (.str s)) <;> simp [hc]
    | some fw =>
      simp only [frameworkFindings, hF, Option.isSome_some, if_true, exc_bind_ok,
        complianceLevelFinding]
      cases hw : VALID_FRAMEWORKS.any (fun s => beqV fw (.str s)) <;>
        cases hc : VALID_LEVELS.any (fun s => beqV v (.str s)) <;>
          simp [hw, hc]
  · constructor
    · intro h
      by_cases hc : (VALID_LEVELS.any (fun s => beqV v (.str s))) = true
      · rw [List.any_eq_true] at hc
        obtain ⟨s, hs, hb⟩ := hc
        rw [beqV_str_iff] at hb
        subst hb
        exact List.mem_map_of_mem _ hs
      · exfalso
        rw [Bool.not_eq_true] at hc
        unfold complianceLevelFinding at h
        rw [hc] at h
        simp at h
    · intro hmem
      obtain ⟨s, hs, hv⟩ := List.mem_map.mp hmem
      subst hv
      have hc : VALID_LEVELS.any (fun t => beqV (.str s) (.str t)) = true := by
        rw [List.any_eq_true]
        exact ⟨s, hs, by simp⟩
      unfold complianceLevelFinding
      rw [hc]
      simp

/-- C6 witness: the theorem applied at a concrete resource whose
compliance level is the in-set value `standard`. -/
theorem claim_C6_witness :
    validate_compliance_labels
        (Value.dict [("metadata", Value.dict [("labels",
          Value.dict [("nixernetes.io/compliance-level", Value.str "standard")])])]) false
      = .ok ((frameworkFindings [("nixernetes.io/compliance-level", Value.str "standard")]
              ++ complianceLevelFinding (Value.str "standard")).isEmpty,
             frameworkFindings [("nixernetes.io/compliance-level", Value.str "standard")]
              ++ complianceLevelFinding (Value.str "standard"))
    ∧ (complianceLevelFinding (Value.str "standard") = []
        ↔ Value.str "standard" ∈ VALID_LEVELS.map Value.str) :=
  claim_C6_compliance_level_enum
    [("metadata", Value.dict [("labels",
      Value.dict [("nixernetes.io/compliance-level", Value.str "standard")])])]
    [("labels", Value.dict [("nixernetes.io/compliance-level", Value.str "standard")])]
    [("nixernetes.io/compliance-level", Value.str "standard")]
    (Value.str "standard") rfl rfl rfl

/-! ## Claim C5 -/

@[simp] theorem not_isSome_eq_isNone (o : Option Value) : (!o.isSome) = o.isNone := by
  cases o <;> rfl

theorem dictOrAbsent_cases {o : Option Value} (h : dictOrAbsent o = true) :
    o = none ∨ ∃ m, o = some (.dict m) := by
  cases o with
  | none => exact Or.inl rfl
  | some v =>
    cases v with
    | dict m => exact Or.inr ⟨m, rfl⟩
    | str s => simp [dictOrAbsent] at h
    | int n => simp [dictOrAbsent] at h
    | bool b => simp [dictOrAbsent] at h
    | null => simp [dictOrAbsent] at h
    | list xs => simp [dictOrAbsent] at h

/-- The structural validator, on a mapping whose `metadata` (when present)
is a mapping, returns exactly the findings of `structFindings`. -/
theorem validate_resource_structure_eq (kvs : List (String × Value))
    (hmeta : dictOrAbsent (kvs.lookup "metadata") = true) :
    validate_resource_structure (.dict kvs)
      = .ok ((structFindings kvs).isEmpty, structFindings kvs) := by
  rcases dictOrAbsent_cases hmeta with hM | ⟨m, hM⟩
  · unfold validate_resource_structure structFindings
    cases hA : kvs.lookup "apiVersion" <;> cases hK : kvs.lookup "kind" <;>
      simp [hM, hA, hK, any_key_eq_lookup_isSome]
  · unfold validate_resource_structure structFindings
    simp only [pyContains_dict, any_key_eq_lookup_isSome, exc_bind_ok, hM,
      Option.isSome_some, pySubscript_dict, not_isSome_eq_isNone, isDict_dict,
      Option.isNone_some]
    cases hN : m.lookup "name" with
    | none =>
      cases hNs : m.lookup "namespace" <;> simp [hN, hNs]
    | some nm =>
      cases hNs : m.lookup "namespace" <;> simp [hN, hNs]

/-- C5 counterexample: the claim quantifies over every resource missing
`kind` or `apiVersion`; on the document `{"metadata": 7}` — which is
missing both — the validator raises `TypeError` at `"namespace" in
resource["metadata"]` instead of returning the missing-kind and
missing-apiVersion findings. -/
theorem claim_C5_counterexample :
    validate_resource_structure (Value.dict [("metadata", Value.int 7)])
      = .error "TypeError" := rfl

/-- C5 amended: for every mapping resource whose `metadata`, when present,
is a mapping, the structural validator returns exactly the findings of
`structFindings`, and the missing-kind, missing-apiVersion and
missing-name findings each appear iff the corresponding field is absent. -/
theorem mem_of_lookup_eq_some {k : String} {v : Value} {l : List (String × Value)}
    (h : l.lookup k = some v) : (k, v) ∈ l := by
  induction l with
  | nil => cases h
  | cons hd tl ih =>
    obtain ⟨k2, v2⟩ := hd
    by_cases hk : k = k2
    · subst hk
      have he : List.lookup k ((k, v2) :: tl) = some v2 := by simp [List.lookup]
      rw [he] at h
      injection h with h
      subst h
      exact List.mem_cons_self _ _
    · have hbe : (k == k2) = false := by simp [hk]
      have he : List.lookup k ((k2, v2) :: tl) = List.lookup k tl := by
        simp [List.lookup, hbe]
      rw [he] at h
      exact List.mem_cons_of_mem _ (ih h)

theorem lookup_none_key (k : String) (l : List (String × Value))
    (h : l.lookup k = none) : ∀ a b, (a, b) ∈ l → ¬ k = a := by
  revert h
  induction l with
  | nil =>
    intro h a b hm
    cases hm
  | cons hd tl ih =>
    obtain ⟨k2, v2⟩ := hd
    intro h
    by_cases hk : k = k2
    · subst hk
      have he : List.lookup k ((k, v2) :: tl) = some v2 := by simp [List.lookup]
      rw [he] at h
      cases h
    · have hbe : (k == k2) = false := by simp [hk]
      have he : List.lookup k ((k2, v2) :: tl) = List.lookup k tl := by
        simp [List.lookup, hbe]
      rw [he] at h
      intro a b hm hka
      rcases List.mem_cons.mp hm with hhd | htl
      · injection hhd with h1 h2
        subst hka
        exact hk h1
      · exact ih h a b htl hka

set_option maxHeartbeats 1600000 in
theorem claim_C5_structural_findings (kvs : List (String × Value))
    (hmeta : dictOrAbsent (kvs.lookup "metadata") = true) :
    validate_resource_structure (.dict kvs)
      = .ok ((structFindings kvs).isEmpty, structFindings kvs)
    ∧ ("Missing required field: kind" ∈ structFindings kvs ↔ kvs.lookup "kind" = none)
    ∧ ("Missing required field: apiVersion" ∈ structFindings kvs
        ↔ kvs.lookup "apiVersion" = none)
    ∧ ("metadata.name is required" ∈ structFindings kvs
        ↔ ∃ m, kvs.lookup "metadata" = some (.dict m) ∧ m.lookup "name" = none) := by
  refine ⟨validate_resource_structure_eq kvs hmeta, ?_, ?_, ?_⟩
  · rcases dictOrAbsent_cases hmeta with hM | ⟨m, hM⟩
    · simp only [structFindings, hM]
      cases hA : kvs.lookup "apiVersion" <;> cases hK : kvs.lookup "kind" <;>
        simp [hA, hK]
    · simp only [structFindings, hM]
      clear hmeta hM
      cases hA : kvs.lookup "apiVersion" <;> cases hK : kvs.lookup "kind" <;>
        cases hN : m.lookup "name" <;> cases hNs : m.lookup "namespace" <;>
          split_ifs <;> simp_all
  · rcases dictOrAbsent_cases hmeta with hM | ⟨m, hM⟩
    · simp only [structFindings, hM]
      cases hA : kvs.lookup "apiVersion" <;> cases hK : kvs.lookup "kind" <;>
        simp [hA, hK]
    · simp only [structFindings, hM]
      clear hmeta hM
      cases hA : kvs.lookup "apiVersion" <;> cases hK : kvs.lookup "kind" <;>
        cases hN : m.lookup "name" <;> cases hNs : m.lookup "namespace" <;>
          split_ifs <;> simp_all
  · rcases dictOrAbsent_cases hmeta with hM | ⟨m, hM⟩
    · simp only [structFindings, hM]
      cases hA : kvs.lookup "apiVersion" <;> cases hK : kvs.lookup "kind" <;>
        simp [hA, hK]
    · simp only [structFindings, hM]
      clear hmeta hM
      cases hA : kvs.lookup "apiVersion" <;> cases hK : kvs.lookup "kind" <;>
        cases hN : m.lookup "name" <;> cases hNs : m.lookup "namespace" <;>
          split_ifs <;> simp_all <;>
            first
              | exact ⟨_, mem_of_lookup_eq_some hN⟩
              | exact hN

/-- C5 witness: the amended theorem applied at a concrete resource missing
`kind`, `apiVersion`, and `metadata.name`. -/
theorem claim_C5_witness :
    validate_resource_structure (Value.dict [("metadata", Value.dict [])])
      = .ok ((structFindings [("metadata", Value.dict [])]).isEmpty,
             structFindings [("metadata", Value.dict [])]) :=
  (claim_C5_structural_findings [("metadata", Value.dict [])] rfl).1

/-! ## Claims C1 and C9: the Ordering Validator -/

/-- On a bundle of hashable-kind-mapping-or-null documents, every document
surviving the parse filter is a mapping with a hashable kind value. -/
theorem parse_all_order {docs : List Value}
    (h : ∀ d ∈ docs, goodOrderDoc d = true ∨ beqV d .null = true) :
    ∀ d ∈ parse_yaml_manifest docs, goodOrderDoc d = true := by
  intro d hdm
  rcases List.mem_filter.mp hdm with ⟨hmem, hne⟩
  rcases h d hmem with hdict | hnull
  · exact hdict
  · rw [hnull] at hne
    cases hne

/-- On a mapping with hashable kind value, `resource_priority.get` does not
raise and returns the total priority of the document. -/
theorem priorityOf_eq_docPriority (kvs : List (String × Value))
    (h : goodOrderDoc (.dict kvs) = true) :
    priorityOf ((kvs.lookup "kind").getD .null) = .ok (docPriority (Value.dict kvs)) := by
  simp only [goodOrderDoc] at h
  simp only [docPriority]
  cases hk : (kvs.lookup "kind").getD .null <;> rw [hk] at h <;>
    simp only [priorityOf] <;> first | rfl | cases h

/-- The ordering walk computes non-decrease of the priority sequence
against the running baseline, and one issue per strict descent (the
baseline always advances). -/
theorem ordering_loop_spec :
    ∀ (rs : List Value), (∀ d ∈ rs, goodOrderDoc d = true) → ∀ i prev, ∃ iss,
      ordering_loop i prev rs
        = .ok (decide (List.Chain' (· ≤ ·) (prev :: rs.map docPriority)), iss)
      ∧ iss.length = descentCount prev (rs.map docPriority) := by
  intro rs
  induction rs with
  | nil =>
    intro _ i prev
    refine ⟨[], ?_, rfl⟩
    simp [ordering_loop, descentCount]
  | cons r rest ih =>
    intro h i prev
    have hr : goodOrderDoc r = true := h r (List.mem_cons_self _ _)
    cases r with
    | str s => cases hr
    | int n => cases hr
    | bool b => cases hr
    | null => cases hr
    | list xs => cases hr
    | dict kvs =>
      have hrest : ∀ d ∈ rest, goodOrderDoc d = true :=
        fun d hd => h d (List.mem_cons_of_mem _ hd)
      obtain ⟨iss, hrec, hlen⟩ := ih hrest (i + 1) (docPriority (Value.dict kvs))
      refine ⟨(if docPriority (Value.dict kvs) < prev then
          ["Resource " ++ toString i ++ ": "
            ++ pyStr ((kvs.lookup "kind").getD .null) ++ " (priority "
            ++ toString (docPriority (Value.dict kvs)) ++ ") comes after priority "
            ++ toString prev]
        else []) ++ iss, ?_, ?_⟩
      · simp only [ordering_loop, beqV_dict_null, Bool.false_eq_true, if_false,
          pyGet_dict, exc_bind_ok, priorityOf_eq_docPriority kvs hr]
        rw [hrec]
        by_cases hlt : docPriority (Value.dict kvs) < prev
        · have hle : ¬ (prev ≤ docPriority (Value.dict kvs)) := by omega
          simp [List.chain'_cons, hlt, hle]
        · have hle : prev ≤ docPriority (Value.dict kvs) := by omega
          simp [List.chain'_cons, hlt, hle]
      · simp only [List.length_append, hlen, List.map_cons, descentCount]
        by_cases hlt : docPriority (Value.dict kvs) < prev <;>
          simp [hlt]

/-- Prepending the baseline 0 never adds a constraint. -/
theorem chain'_zero_cons (ps : List Nat) :
    List.Chain' (· ≤ ·) (0 :: ps) ↔ List.Chain' (· ≤ ·) ps := by
  cases ps with
  | nil => simp
  | cons p ps2 => rw [List.chain'_cons]; simp [Nat.zero_le]

/-- C1 counterexample: the claim quantifies over every bundle, but on a
mapping document whose `kind` value is a list, `validate_resource_ordering`
raises `TypeError` (`resource_priority.get` hashes the key) instead of
returning any `is_ordered` verdict, so the iff fails there. -/
theorem claim_C1_counterexample :
    validate_resource_ordering [Value.dict [("kind", Value.list [Value.str "a"])]]
      = .error "TypeError" := rfl

/-- C1 amended: for every bundle of mapping-or-null documents whose `kind`
values are hashable (not lists or mappings), `validate_resource_ordering`
reports `is_ordered = true` iff the priority sequence of the non-null
documents (kinds mapped through the fixed table, unknown kinds to the
sentinel 99) is non-decreasing; ties are accepted. -/
theorem claim_C1_ordering_iff_nondecreasing (docs : List Value)
    (h : ∀ d ∈ docs, goodOrderDoc d = true ∨ beqV d .null = true) :
    ∃ res, validate_resource_ordering docs = .ok res
      ∧ (res.is_ordered = true ↔ List.Chain' (· ≤ ·) (bundlePriorities docs)) := by
  obtain ⟨iss, hrec, hlen⟩ := ordering_loop_spec _ (parse_all_order h) 0 0
  refine ⟨{ is_ordered := decide (List.Chain' (· ≤ ·)
              (0 :: (parse_yaml_manifest docs).map docPriority)),
            ordering_issues := iss,
            resource_count := (parse_yaml_manifest docs).length }, ?_, ?_⟩
  · simp only [validate_resource_ordering, hrec, exc_bind_ok, exc_pure]
  · show decide (List.Chain' (· ≤ ·)
        (0 :: (parse_yaml_manifest docs).map docPriority)) = true ↔ _
    rw [decide_eq_true_eq, chain'_zero_cons]
    exact Iff.rfl

/-- C1 witness: the theorem applied at the ordered bundle
[Namespace, Deployment, NetworkPolicy] (priorities 1, 4, 7). -/
theorem claim_C1_witness :
    ∃ res, validate_resource_ordering
        [Value.dict [("kind", Value.str "Namespace")],
         Value.dict [("kind", Value.str "Deployment")],
         Value.dict [("kind", Value.str "NetworkPolicy")]] = .ok res
      ∧ (res.is_ordered = true ↔ List.Chain' (· ≤ ·) (bundlePriorities
          [Value.dict [("kind", Value.str "Namespace")],
           Value.dict [("kind", Value.str "Deployment")],
           Value.dict [("kind", Value.str "NetworkPolicy")]])) :=
  claim_C1_ordering_iff_nondecreasing _
    (by intro d hd; fin_cases hd <;> exact Or.inl rfl)

/-- C9 counterexample: the claim quantifies over every bundle with exactly
one strict descent, but the bundle [Service, Namespace, dict-kind document]
(would-be priorities 5, 1, 99, exactly one strict descent) raises
`TypeError` at the unhashable `kind` value instead of producing the one
finding. -/
theorem claim_C9_counterexample :
    validate_resource_ordering
        [Value.dict [("kind", Value.str "Service")],
         Value.dict [("kind", Value.str "Namespace")],
         Value.dict [("kind", Value.dict [])]]
      = .error "TypeError"
    ∧ descentCount 0 (bundlePriorities
        [Value.dict [("kind", Value.str "Service")],
         Value.dict [("kind", Value.str "Namespace")],
         Value.dict [("kind", Value.dict [])]]) = 1 :=
  ⟨rfl, rfl⟩

/-- C9 amended: the baseline `prev_priority` advances even on a violation,
so on bundles of hashable-kind-mapping-or-null documents the number of
ordering-violation findings equals the number of strict descents between
consecutive priorities; in particular the bundle
[Service, Namespace, Deployment] (priorities 5, 1, 4, exactly one strict
descent) yields exactly one finding, at index 1, even though Deployment
still precedes nothing higher. -/
theorem claim_C9_one_finding_per_descent :
    (∀ docs : List Value, (∀ d ∈ docs, goodOrderDoc d = true ∨ beqV d .null = true) →
      ∃ res, validate_resource_ordering docs = .ok res
        ∧ res.ordering_issues.length = descentCount 0 (bundlePriorities docs))
    ∧ validate_resource_ordering
        [Value.dict [("kind", Value.str "Service")],
         Value.dict [("kind", Value.str "Namespace")],
         Value.dict [("kind", Value.str "Deployment")]]
      = .ok { is_ordered := false,
              ordering_issues :=
                ["Resource 1: Namespace (priority 1) comes after priority 5"],
              resource_count := 3 } := by
  constructor
  · intro docs h
    obtain ⟨iss, hrec, hlen⟩ := ordering_loop_spec _ (parse_all_order h) 0 0
    refine ⟨{ is_ordered := decide (List.Chain' (· ≤ ·)
                (0 :: (parse_yaml_manifest docs).map docPriority)),
              ordering_issues := iss,
              resource_count := (parse_yaml_manifest docs).length }, ?_, hlen⟩
    simp only [validate_resource_ordering, hrec, exc_bind_ok, exc_pure]
  · rfl

/-- C9 witness: the general part applied at a concrete bundle with two
consecutive descents (priorities 7, 4, 1), yielding two findings. -/
theorem claim_C9_witness :
    ∃ res, validate_resource_ordering
        [Value.dict [("kind", Value.str "NetworkPolicy")],
         Value.dict [("kind", Value.str "Deployment")],
         Value.dict [("kind", Value.str "Namespace")]] = .ok res
      ∧ res.ordering_issues.length = descentCount 0 (bundlePriorities
          [Value.dict [("kind", Value.str "NetworkPolicy")],
           Value.dict [("kind", Value.str "Deployment")],
           Value.dict [("kind", Value.str "Namespace")]]) :=
  claim_C9_one_finding_per_descent.1 _
    (by intro d hd; fin_cases hd <;> exact Or.inl rfl)

/-! ## Claims C4 and C10: the Manifest Analyzer bundle-level check -/

@[simp] theorem pyContains_str (k s : String) :
    pyContains k (.str s) = .ok (strContains s k) := rfl

theorem get_priority_str (a : String) : get_priority (.str a) = .ok (tierStr a) := by
  unfold get_priority tierStr
  by_cases h1 : strContains a "alpha" <;> by_cases h2 : strContains a "beta" <;>
    simp [h1, h2]

theorem is_more_stable_str (a b : String) :
    is_more_stable (.str a) (.str b) = .ok (decide (tierStr a > tierStr b)) := by
  unfold is_more_stable
  rw [get_priority_str, get_priority_str]
  rfl

/-- The seeded accumulation over the remaining triples is a left fold of
`pickStable`. -/
theorem accFold_some_eq (ts : List (String × String)) :
    ∀ cur, accFold (some cur) ts
      = some (ts.foldl (fun c t => pickStable c (apiVerOf t.1 t.2)) cur) := by
  induction ts with
  | nil => intro cur; rfl
  | cons t rest ih => intro cur; simp [accFold, ih]

/-- The resolved apiVersion of a nonempty version-string list. -/
def foldVer (l : List String) : Option String :=
  match l with
  | [] => none
  | a :: as => some (as.foldl pickStable a)

theorem accFold_eq_foldVer (ts : List (String × String)) :
    accFold none ts = foldVer (ts.map (fun t => apiVerOf t.1 t.2)) := by
  cases ts with
  | nil => rfl
  | cons t rest =>
    simp [accFold, foldVer, accFold_some_eq, List.foldl_map]

theorem foldl_pick_mem (as : List String) :
    ∀ a, as.foldl pickStable a ∈ a :: as := by
  induction as with
  | nil => intro a; simp
  | cons b bs ih =>
    intro a
    simp only [List.foldl_cons]
    by_cases hb : tierStr b > tierStr a
    · have hp : pickStable a b = b := by simp [pickStable, hb]
      rw [hp]
      rcases List.mem_cons.mp (ih b) with h1 | h1
      · rw [h1]; simp
      · simp [List.mem_cons, h1]
    · have hp : pickStable a b = a := by simp [pickStable, hb]
      rw [hp]
      rcases List.mem_cons.mp (ih a) with h1 | h1
      · rw [h1]; simp
      · simp [List.mem_cons, h1]

theorem foldl_pick_max (as : List String) :
    ∀ a x, x ∈ a :: as → tierStr x ≤ tierStr (as.foldl pickStable a) := by
  induction as with
  | nil =>
    intro a x hx
    rcases List.mem_cons.mp hx with h | h
    · subst h; simp
    · cases h
  | cons b bs ih =>
    intro a x hx
    have h1 : tierStr a ≤ tierStr (pickStable a b) := by
      unfold pickStable; split_ifs with h <;> omega
    have h2 : tierStr b ≤ tierStr (pickStable a b) := by
      unfold pickStable; split_ifs with h <;> omega
    have hhead := ih (pickStable a b) (pickStable a b) (List.mem_cons_self _ _)
    simp only [List.foldl_cons]
    rcases List.mem_cons.mp hx with h | h
    · subst h; omega
    · rcases List.mem_cons.mp h with h | h
      · subst h; omega
      · exact ih (pickStable a b) x (List.mem_cons_of_mem _ h)

theorem process_operation_absent (ak : List String) (m : List (Value × Value))
    (details : Value) (op : String) (h : pyContains op details = .ok false) :
    process_operation ak m details op = .ok m := by
  unfold process_operation
  rw [h]
  simp

theorem process_operation_post (ak : List String) (K g v : String) (acc : Option String)
    (hK : (ak.any fun s => beqV (Value.str K) (.str s)) = true) (hv : (v != "") = true) :
    process_operation ak (accMap K acc) (mkPath g v K) "post"
      = .ok (accMap K (some (match acc with
          | none => apiVerOf g v
          | some cur => pickStable cur (apiVerOf g v)))) := by
  unfold process_operation
  have hc : pyContains "post" (mkPath g v K) = .ok true := rfl
  rw [hc]
  simp only [exc_bind_ok, Bool.not_true, Bool.false_eq_true, if_false]
  have hsub : pySubscript (mkPath g v K) "post"
      = .ok (.dict [("x-kubernetes-group-version-kind", gvkAnn g v K)]) := rfl
  rw [hsub]
  simp only [exc_bind_ok]
  have hgvk : pyGet (.dict [("x-kubernetes-group-version-kind", gvkAnn g v K)])
      "x-kubernetes-group-version-kind" = .ok (gvkAnn g v K) := rfl
  rw [hgvk]
  simp only [exc_bind_ok]
  have ht : (gvkAnn g v K).truthy = true := rfl
  rw [ht]
  simp only [Bool.not_true, Bool.false_eq_true, if_false]
  have hkind : pyGet (gvkAnn g v K) "kind" = .ok (.str K) := rfl
  have hgroup : pyGetD (gvkAnn g v K) "group" (.str "") = .ok (.str g) := rfl
  have hversion : pyGetD (gvkAnn g v K) "version" (.str "") = .ok (.str v) := rfl
  rw [hkind]
  simp only [exc_bind_ok]
  rw [hgroup]
  simp only [exc_bind_ok]
  rw [hversion]
  simp only [exc_bind_ok]
  rw [hK]
  simp only [Bool.not_true, Bool.false_eq_true, if_false]
  rw [truthy_str, hv]
  simp only [Bool.not_true, Bool.false_eq_true, if_false]
  have hav : (if (Value.str g).truthy then Value.str (pyStr (.str g) ++ "/" ++ pyStr (.str v))
      else Value.str v) = .str (apiVerOf g v) := by
    by_cases hg : g = ""
    · subst hg
      simp [apiVerOf, Value.truthy]
    · have hg2 : (g != "") = true := by simpa using hg
      have hg3 : (g == "") = false := by simpa using hg
      simp [apiVerOf, Value.truthy, hg2, hg3]
  rw [hav]
  cases acc with
  | none =>
    simp [accMap, dictGetV, dictSetV]
  | some cur =>
    have hfind : dictGetV (accMap K (some cur)) (.str K) = some (.str cur) := by
      simp [accMap, dictGetV]
    rw [hfind]
    dsimp only
    rw [is_more_stable_str]
    simp only [exc_bind_ok]
    by_cases hcmp : tierStr (apiVerOf g v) > tierStr cur
    · simp [hcmp, pickStable, accMap, dictSetV]
    · simp [hcmp, pickStable, accMap]

theorem process_details_rest (ak : List String) (m : List (Value × Value))
    (g v K : String) :
    List.foldlM (fun m2 op => process_operation ak m2 (mkPath g v K) op) m
      ["get", "put", "patch", "delete"] = .ok m := by
  rw [List.foldlM_cons, process_operation_absent ak m (mkPath g v K) "get" rfl]
  simp only [exc_bind_ok]
  rw [List.foldlM_cons, process_operation_absent ak m (mkPath g v K) "put" rfl]
  simp only [exc_bind_ok]
  rw [List.foldlM_cons, process_operation_absent ak m (mkPath g v K) "patch" rfl]
  simp only [exc_bind_ok]
  rw [List.foldlM_cons, process_operation_absent ak m (mkPath g v K) "delete" rfl]
  simp only [exc_bind_ok]
  rfl

theorem process_details_step (ak : List String) (K g v : String) (acc : Option String)
    (hK : (ak.any fun s => beqV (Value.str K) (.str s)) = true) (hv : (v != "") = true) :
    process_details ak (accMap K acc) (mkPath g v K)
      = .ok (accMap K (some (match acc with
          | none => apiVerOf g v
          | some cur => pickStable cur (apiVerOf g v)))) := by
  unfold process_details verbs
  rw [List.foldlM_cons, process_operation_post ak K g v acc hK hv]
  simp only [exc_bind_ok]
  exact process_details_rest ak _ g v K

theorem extract_fold (ak : List String) (K : String)
    (hK : (ak.any fun s => beqV (Value.str K) (.str s)) = true) :
    ∀ (ps : List (String × (String × String))) (acc : Option String),
      (∀ t ∈ ps, (t.2.2 != "") = true) →
      List.foldlM (fun m kv => process_details ak m kv.2) (accMap K acc)
          (ps.map (fun p => (p.1, mkPath p.2.1 p.2.2 K)))
        = .ok (accMap K (accFold acc (ps.map Prod.snd))) := by
  intro ps
  induction ps with
  | nil =>
    intro acc _
    simp only [List.map_nil, List.foldlM_nil, accFold, exc_pure]
  | cons p rest ih =>
    intro acc hv
    obtain ⟨nm, g, v⟩ := p
    simp only [List.map_cons, List.foldlM_cons]
    rw [process_details_step ak K g v acc hK (hv (nm, g, v) (List.mem_cons_self _ _))]
    simp only [exc_bind_ok]
    rw [ih (some (match acc with
        | none => apiVerOf g v
        | some cur => pickStable cur (apiVerOf g v)))
      (fun t ht => hv t (List.mem_cons_of_mem _ ht))]
    cases acc <;> rfl

theorem extract_api_map_mkSpecDoc (ak : List String) (K : String)
    (ts : List (String × String))
    (hK : (ak.any fun s => beqV (Value.str K) (.str s)) = true)
    (hv : ∀ t ∈ ts, (t.2 != "") = true) :
    extract_api_map ak (mkSpecDoc K ts) = .ok (accMap K (accFold none ts)) := by
  unfold extract_api_map mkSpecDoc
  simp only [pyGetD_dict, pyItems_dict, exc_bind_ok, List.lookup, Option.getD_some]
  have hmap : ts.map (fun t => ("/apis/" ++ t.1 ++ "/" ++ t.2, mkPath t.1 t.2 K))
      = (ts.map (fun t => ("/apis/" ++ t.1 ++ "/" ++ t.2, t))).map
          (fun q => (q.1, mkPath q.2.1 q.2.2 K)) := by
    simp [List.map_map, Function.comp]
  rw [hmap]
  have hv2 : ∀ t ∈ ts.map (fun t => ("/apis/" ++ t.1 ++ "/" ++ t.2, t)),
      (t.2.2 != "") = true := by
    intro t ht
    obtain ⟨u, hu, rfl⟩ := List.mem_map.mp ht
    exact hv u hu
  have hfold := extract_fold ak K hK
    (ts.map (fun t => ("/apis/" ++ t.1 ++ "/" ++ t.2, t))) none hv2
  have hsnd : (ts.map (fun t => ("/apis/" ++ t.1 ++ "/" ++ t.2, t))).map Prod.snd = ts := by
    rw [List.map_map]
    exact List.map_id ts
  rw [hsnd] at hfold
  exact hfold

theorem foldVer_spec (l : List String) (hne : l ≠ []) :
    ∃ r, foldVer l = some r ∧ r ∈ l ∧ ∀ a ∈ l, tierStr a ≤ tierStr r := by
  cases l with
  | nil => cases hne rfl
  | cons a as =>
    exact ⟨as.foldl pickStable a, rfl, foldl_pick_mem as a, foldl_pick_max as a⟩

theorem max_unique (l : List String)
    (hdist : l.Pairwise (fun a b => tierStr a ≠ tierStr b))
    (r1 r2 : String) (h1 : r1 ∈ l) (h2 : r2 ∈ l)
    (hm1 : ∀ a ∈ l, tierStr a ≤ tierStr r1) (hm2 : ∀ a ∈ l, tierStr a ≤ tierStr r2) :
    r1 = r2 := by
  by_contra hne
  have hsym : Symmetric (fun a b : String => tierStr a ≠ tierStr b) :=
    fun a b h => Ne.symm h
  have hdiff := hdist.forall hsym h1 h2 hne
  have ha := hm1 r2 h2
  have hb := hm2 r1 h1
  exact hdiff (Nat.le_antisymm hb ha)

/-- C2 counterexample: two GVK triples for `Deployment` with the same kind
and version-strings `v1` (stable tier) and `v2beta1` (beta tier) — pairwise
different stability tiers — where the first triple's group contains the
substring `beta`.  The builder ranks stability on the concatenated
`group/version` apiVersion string, so both candidates rank as beta and
first-seen wins: the two orders of the same triples resolve to different
maps, refuting both permutation invariance and most-stable resolution as
the claim states them. -/
theorem claim_C2_counterexample :
    extract_api_map (all_kinds true)
        (mkSpecDoc "Deployment" [("beta.example", "v1"), ("", "v2beta1")])
      = .ok [(.str "Deployment", .str "beta.example/v1")]
    ∧ extract_api_map (all_kinds true)
        (mkSpecDoc "Deployment" [("", "v2beta1"), ("beta.example", "v1")])
      = .ok [(.str "Deployment", .str "v2beta1")]
    ∧ tierStr "v1" ≠ tierStr "v2beta1"
    ∧ ("beta.example/v1" : String) ≠ "v2beta1" := by
  refine ⟨rfl, rfl, by decide, by decide⟩

/-- C2 amended: for every allow-listed kind and every nonempty set of GVK
triples for it with non-empty versions whose RESOLVED apiVersion strings
(`group/version`, or the bare version for an empty group) lie in pairwise
different stability tiers, `extract_api_map` resolves the kind to the
apiVersion of the most stable tier present, and the resulting map is
identical for every permutation of the input triples. -/
theorem claim_C2_most_stable_permutation_invariant
    (ak : List String) (K : String) (ts1 ts2 : List (String × String))
    (hK : K ∈ ak) (hne : ts1 ≠ [])
    (hv : ∀ t ∈ ts1, t.2 ≠ "")
    (hperm : ts1.Perm ts2)
    (hdist : (ts1.map (fun t => apiVerOf t.1 t.2)).Pairwise
      (fun a b => tierStr a ≠ tierStr b)) :
    ∃ t, t ∈ ts1
      ∧ (∀ u ∈ ts1, tierStr (apiVerOf u.1 u.2) ≤ tierStr (apiVerOf t.1 t.2))
      ∧ extract_api_map ak (mkSpecDoc K ts1) = .ok [(.str K, .str (apiVerOf t.1 t.2))]
      ∧ extract_api_map ak (mkSpecDoc K ts2) = .ok [(.str K, .str (apiVerOf t.1 t.2))] := by
  have hKany : (ak.any fun s => beqV (Value.str K) (.str s)) = true := by
    rw [List.any_eq_true]
    exact ⟨K, hK, by simp⟩
  have hv1 : ∀ t ∈ ts1, (t.2 != "") = true := fun t ht => by simpa using hv t ht
  have hv2 : ∀ t ∈ ts2, (t.2 != "") = true := fun t ht => hv1 t (hperm.mem_iff.mpr ht)
  have he1 := extract_api_map_mkSpecDoc ak K ts1 hKany hv1
  have he2 := extract_api_map_mkSpecDoc ak K ts2 hKany hv2
  rw [accFold_eq_foldVer] at he1 he2
  have hlperm : (ts1.map (fun t => apiVerOf t.1 t.2)).Perm
      (ts2.map (fun t => apiVerOf t.1 t.2)) := hperm.map _
  have hne1 : ts1.map (fun t => apiVerOf t.1 t.2) ≠ [] :=
    fun hnil => hne (List.map_eq_nil_iff.mp hnil)
  have hne2 : ts2.map (fun t => apiVerOf t.1 t.2) ≠ [] := by
    intro hnil
    rw [hnil] at hlperm
    exact hne1 hlperm.eq_nil
  obtain ⟨r1, hr1eq, hr1mem, hr1max⟩ := foldVer_spec _ hne1
  obtain ⟨r2, hr2eq, hr2mem, hr2max⟩ := foldVer_spec _ hne2
  have hr2mem1 : r2 ∈ ts1.map (fun t => apiVerOf t.1 t.2) := hlperm.mem_iff.mpr hr2mem
  have hr2max1 : ∀ a ∈ ts1.map (fun t => apiVerOf t.1 t.2), tierStr a ≤ tierStr r2 :=
    fun a ha => hr2max a (hlperm.mem_iff.mp ha)
  have hr12 : r1 = r2 := max_unique _ hdist r1 r2 hr1mem hr2mem1 hr1max hr2max1
  obtain ⟨t, htmem, htv⟩ := List.mem_map.mp hr1mem
  refine ⟨t, htmem, ?_, ?_, ?_⟩
  · intro u hu
    have hle := hr1max (apiVerOf u.1 u.2) (List.mem_map_of_mem _ hu)
    rw [htv]
    exact hle
  · rw [he1, hr1eq, ← htv]
    rfl
  · rw [he2, hr2eq, ← hr12, ← htv]
    rfl

/-- C2 witness: the amended theorem applied at the allow-listed kind
`Deployment` with the triples (group `apps`, `v1`) and (empty group,
`v1beta1`), in both orders. -/
theorem claim_C2_witness :
    ∃ t, t ∈ [(("" : String), ("v1beta1" : String)), ("apps", "v1")]
      ∧ (∀ u ∈ [(("" : String), ("v1beta1" : String)), ("apps", "v1")],
          tierStr (apiVerOf u.1 u.2) ≤ tierStr (apiVerOf t.1 t.2))
      ∧ extract_api_map (all_kinds true)
          (mkSpecDoc "Deployment" [("", "v1beta1"), ("apps", "v1")])
          = .ok [(.str "Deployment", .str (apiVerOf t.1 t.2))]
      ∧ extract_api_map (all_kinds true)
          (mkSpecDoc "Deployment" [("apps", "v1"), ("", "v1beta1")])
          = .ok [(.str "Deployment", .str (apiVerOf t.1 t.2))] :=
  claim_C2_most_stable_permutation_invariant (all_kinds true) "Deployment"
    [("", "v1beta1"), ("apps", "v1")] [("apps", "v1"), ("", "v1beta1")]
    (by decide) (by decide)
    (by intro t ht; fin_cases ht <;> decide)
    (List.Perm.swap _ _ _)
    (by decide)
